import Mathlib

/-!
# Verification of the jwtregistry package

A shallow embedding of the `jwtregistry` Go package (registry.go,
timeclock.go) together with proofs about the claims of its
specification.

Modelling conventions:
* Instants are `Int` (Unix seconds, the unit used by `TimeClock`);
  durations are `Int` in the same unit.
* `time.Now()` is represented by an explicit `wall : Int` argument
  threaded through every function that may consult the real clock.
* A Go `jwt.Clock` interface value is `Option JwtClock` (`none` = nil
  interface); a `JwtClock` is a function from the current wall-clock
  time to the instant its `Now()` returns (real implementations may
  ignore the argument).
* The global registry map is a total function `String → Option Context`;
  `initOnce` (which only allocates the empty map) is absorbed into
  starting from the empty registry.
* Fallible Go functions returning `(T, error)` become `Except String T`
  carrying the exact error message strings of the source.
* The external jwx library calls (token build/sign/parse) are out of
  scope of the package and are modelled; the registry code itself is
  translated line by line from `src/registry.go`.
-/

namespace Jwtregistry

/-- `TimeClock` from timeclock.go: a `jwt.Clock` holding a fixed Unix
time in seconds; `0` is the unset sentinel. -/
structure TimeClock where
  NowTime : Int
deriving DecidableEq

/-- `TimeClock.Now` from timeclock.go: returns the fixed instant
`time.Unix(NowTime, 0)` when `NowTime` is non-zero, and falls back to
the real wall-clock time `time.Now()` when it is zero. -/
def TimeClock.Now (tc : TimeClock) (wall : Int) : Int :=
  if tc.NowTime ≠ 0 then tc.NowTime else wall

/-- A `jwt.Clock` implementation: maps the real wall-clock time to the
instant returned by its `Now()` method. -/
def JwtClock : Type := Int → Int

/-- The `jwt.Clock` view of a `TimeClock`. -/
def TimeClock.toClock (tc : TimeClock) : JwtClock :=
  fun wall => tc.Now wall

/-- The clock `Register` stores into every new `Context`:
`&TimeClock{}`, i.e. a `TimeClock` with the unset sentinel. -/
def defaultClock : JwtClock :=
  TimeClock.toClock ⟨0⟩

/-- A key of the external jwk library, as the package uses it: a key id
(`kid`) and the key's own declared algorithm. Key material is carried
opaquely as the raw secret bytes (a string); the cryptography itself is
out of scope. -/
structure Key where
  keyID : String
  algorithm : String
  raw : String
deriving DecidableEq

/-- A `jwk.Set`: an ordered collection of keys. -/
structure JwkSet where
  keys : List Key
deriving DecidableEq

/-- `jwk.Set.Len`. -/
def JwkSet.Len (ks : JwkSet) : Nat :=
  ks.keys.length

/-- `jwk.Set.LookupKeyID`: the first key whose `kid` matches. -/
def JwkSet.LookupKeyID (ks : JwkSet) (kid : String) : Option Key :=
  ks.keys.find? (fun k => k.keyID = kid)

/-- A JWT claim value as this package produces them: the string-valued
claims set by callers, and the time-valued claims `iat`/`exp`. -/
inductive ClaimValue where
  | str (s : String)
  | time (t : Int)
deriving DecidableEq

/-- `fmt.Sprintf` with `%v`, as applied to claim values. -/
def render : ClaimValue → String
  | .str s => s
  | .time t => toString t

/-- The claim set of a token: a finite map from claim name to value. -/
def Token : Type := String → Option ClaimValue

/-- `jwt.Token.Set` / `jwt.Builder.Claim`: store a claim, overwriting
any previous value under the same name (last write wins). -/
def setClaim (t : Token) (k : String) (v : ClaimValue) : Token :=
  fun k' => if k' = k then some v else t k'

/-- The empty claim set. -/
def emptyToken : Token := fun _ => none

/-- `Context` from registry.go: the immutable per-purpose
configuration. -/
structure Context where
  purpose : String
  issuer : String
  keyset : Option JwkSet
  signingKeyName : String
  signingValidityPeriod : Int
  clock : Option JwtClock

/-- The functional options accepted by `Register`. The package exports
exactly these three constructors of its `Option` type. -/
inductive Opt where
  | withKeyset (ks : Option JwkSet)
  | withSigningKeyName (name : String)
  | withSigningValidityPeriod (d : Int)

/-- Apply one functional option to a context under construction
(`WithKeyset`, `WithSigningKeyName`, `WithSigningValidityPeriod` from
registry.go: each sets exactly one field). -/
def applyOpt (o : Opt) (c : Context) : Context :=
  match o with
  | .withKeyset ks => { c with keyset := ks }
  | .withSigningKeyName n => { c with signingKeyName := n }
  | .withSigningValidityPeriod d => { c with signingValidityPeriod := d }

/-- The global registry map `registry map[string]*Context`. -/
def Registry : Type := String → Option Context

/-- The registry right after `initOnce` allocated it. -/
def emptyRegistry : Registry := fun _ => none

/-- `findContext` from registry.go (the map read, lock elided in the
pure model; the locking itself is treated in the event-trace model
below). -/
def findContext (reg : Registry) (name : String) : Option Context :=
  reg name

/-- The `Context` literal `Register` builds before applying options:
purpose, issuer, and a default clock `&TimeClock{}`; all other fields
are Go zero values. -/
def buildContext (purpose issuer : String) (opts : List Opt) : Context :=
  opts.foldl (fun c o => applyOpt o c)
    { purpose := purpose
      issuer := issuer
      keyset := none
      signingKeyName := ""
      signingValidityPeriod := 0
      clock := some defaultClock }

/-- Store a context in the registry map under a purpose. -/
def updateReg (reg : Registry) (p : String) (c : Context) : Registry :=
  fun k => if k = p then some c else reg k

/-- `Register` from registry.go, in state-passing style: returns the
new registry state and the error (`none` on success). -/
def RegisterOp (reg : Registry) (purpose issuer : String) (opts : List Opt) :
    Registry × Option String :=
  if purpose.length = 0 then (reg, some "purpose must be provided")
  else if issuer.length = 0 then (reg, some "issuer must be provided")
  else (updateReg reg purpose (buildContext purpose issuer opts), none)

/-- `Delete` from registry.go. -/
def DeleteOp (reg : Registry) (purpose : String) : Registry :=
  fun k => if k = purpose then none else reg k

/-- `Clear` from registry.go: deletes every entry. -/
def ClearOp (_ : Registry) : Registry :=
  fun _ => none

/-- `nowFromClock` from registry.go: the supplied clock's `Now()` when
it is non-nil, else `time.Now()`. -/
def nowFromClock (clock : Option JwtClock) (wall : Int) : Int :=
  match clock with
  | none => wall
  | some cl => cl wall

/-- A signed JWT as the package produces one: the encoded claim set,
together with the signature metadata the compact serialization records
(the algorithm used and the key that signed, via its `kid` header).
The byte-level serialization and the MAC itself are out of scope. -/
structure SignedToken where
  claims : Token
  alg : String
  key : Key

/-- The standard claim set `Sign` builds before merging extra claims:
`iss` from the context, `iat` from the clock, and — only when the
configured validity period is positive — `exp` at `now` plus the
period (registry.go lines 150-156). -/
def standardClaims (issuer : String) (now period : Int) : Token :=
  let t1 := setClaim emptyToken "iss" (.str issuer)
  let t2 := setClaim t1 "iat" (.time now)
  if period > 0 then setClaim t2 "exp" (.time (now + period)) else t2

/-- Merge the caller's extra claims into a claim set with `t.Set`
(overwrite semantics), in iteration order. -/
def mergeClaims (t : Token) (claims : List (String × String)) : Token :=
  claims.foldl (fun t kv => setClaim t kv.1 (.str kv.2)) t

/-- `Sign` from registry.go, translated check for check: context
lookup, signing-key-name check, keyset nil/empty check, key resolution,
clock resolution, claim building and merging, and the final
`jwt.Sign(t, jwa.SignatureAlgorithm(key.Algorithm()), key)` call
(modelled as packaging the claims with the key's algorithm and the
key). -/
def Sign (reg : Registry) (purpose : String) (claims : List (String × String))
    (clock : Option JwtClock) (wall : Int) : Except String SignedToken :=
  match findContext reg purpose with
  | none => .error "context not found in registry"
  | some c =>
    if c.signingKeyName.length = 0 then .error "signing key not set"
    else
      match c.keyset with
      | none => .error "keyset is empty"
      | some ks =>
        if ks.Len = 0 then .error "keyset is empty"
        else
          match ks.LookupKeyID c.signingKeyName with
          | none => .error "key is not in the keyset"
          | some key =>
            let now := nowFromClock clock wall
            let t := mergeClaims (standardClaims c.issuer now c.signingValidityPeriod) claims
            .ok { claims := t, alg := key.algorithm, key := key }

/-- The claim names the jwt library registers (`aud`, `exp`, `iat`,
`iss`, `jti`, `nbf`, `sub`); every other claim is a private claim. -/
def isRegisteredClaim (k : String) : Bool :=
  (["aud", "exp", "iat", "iss", "jti", "nbf", "sub"] : List String).contains k

/-- Is the `iat` claim, when present, not in the future of `now`? -/
def iatOK (t : Token) (now : Int) : Bool :=
  match t "iat" with
  | some (.time v) => v ≤ now
  | _ => true

/-- Is the `exp` claim, when present, still in the future of `now`? -/
def expOK (t : Token) (now : Int) : Bool :=
  match t "exp" with
  | some (.time v) => now < v
  | _ => true

/-- Modelled from the spec: the external library's
`jwt.Parse(signed, WithValidate(true), WithIssuer(issuer),
WithKeySet(ks), [WithClock(clock)])`, which is not part of this
repository. It verifies the signature against the key set, checks the
issuer, checks the time-based claims against the (possibly overridden)
clock, and returns the decoded claim set or a descriptive error. -/
def jwtParse (ks : JwkSet) (issuer : String) (clock : Option JwtClock)
    (wall : Int) (tok : SignedToken) : Except String Token :=
  let now := nowFromClock clock wall
  if ks.LookupKeyID tok.key.keyID ≠ some tok.key then
    .error "could not verify message using any of the signatures or keys"
  else if tok.claims "iss" ≠ some (.str issuer) then
    .error "\x22iss\x22 not satisfied: values do not match"
  else if ¬ iatOK tok.claims now then
    .error "\x22iat\x22 not satisfied"
  else if ¬ expOK tok.claims now then
    .error "\x22exp\x22 not satisfied"
  else
    .ok tok.claims

/-- The success result of `Validate`: every private (non-registered)
claim of the token rendered as a string; registered claims are
consumed for validation but not returned (`t.PrivateClaims()` plus
`fmt.Sprintf` in registry.go lines 204-207). -/
def privateClaimsRendered (t : Token) : String → Option String :=
  fun k => if isRegisteredClaim k then none else (t k).map render

/-- `Validate` from registry.go: context lookup, keyset nil/empty
check, delegated parse+verify, then the private-claims rendering. -/
def Validate (reg : Registry) (purpose : String) (tok : SignedToken)
    (clock : Option JwtClock) (wall : Int) :
    Except String (String → Option String) :=
  match findContext reg purpose with
  | none => .error "context not found in registry"
  | some c =>
    match c.keyset with
    | none => .error "keyset is empty"
    | some ks =>
      if ks.Len = 0 then .error "keyset is empty"
      else
        match jwtParse ks c.issuer clock wall tok with
        | .error e => .error e
        | .ok claims => .ok (privateClaimsRendered claims)

/-- `Sign` in state-passing style. The source `Sign` only reads the
registry (through `findContext`) and never writes the map, so the
state it returns is the state it was given. -/
def SignOp (reg : Registry) (purpose : String) (claims : List (String × String))
    (clock : Option JwtClock) (wall : Int) :
    Registry × Except String SignedToken :=
  (reg, Sign reg purpose claims clock wall)

/-- `Validate` in state-passing style; like `Sign` it only reads the
registry map. -/
def ValidateOp (reg : Registry) (purpose : String) (tok : SignedToken)
    (clock : Option JwtClock) (wall : Int) :
    Registry × Except String (String → Option String) :=
  (reg, Validate reg purpose tok clock wall)

/-- The error message, if any, of a fallible result. -/
def errInfo {α : Type} : Except String α → Option String
  | .error e => some e
  | .ok _ => none

/-- The algorithm and key a successful `Sign` used, if it succeeded. -/
def signKeyAlg (r : Except String SignedToken) : Option (Key × String) :=
  match r with
  | .ok st => some (st.key, st.alg)
  | .error _ => none

/-- The decoded claim set of a successful `Sign`. -/
def claimsOf (r : Except String SignedToken) : Option Token :=
  match r with
  | .ok st => some st.claims
  | .error _ => none

/-- One claim of a successful `Sign`'s decoded claim set. -/
def claimAt (r : Except String SignedToken) (k : String) : Option ClaimValue :=
  match r with
  | .ok st => st.claims k
  | .error _ => none

/-!
## Event-trace model of the locking discipline

Each exported operation is abstracted to the sequence of
lock/unlock/map-access/external-call events its body performs, read off
the source line by line. The pure functions above give the data
behaviour; these traces give the synchronisation behaviour.
-/

/-- An observable synchronisation event of one operation's body. -/
inductive Event where
  | lock
  | unlock
  | mapRead
  | mapWrite
  | extCall
deriving DecidableEq

/-- `findContext`: `lock.Lock()`, the map read `registry[name]`, and
the deferred `lock.Unlock()`. -/
def findContextEvents : List Event :=
  [.lock, .mapRead, .unlock]

/-- `Register`: the argument-validation failures return before any
map access; the success path takes the lock, writes
`registry[purpose] = r`, and releases it. -/
def registerEvents (argsOK : Bool) : List Event :=
  if argsOK then [.lock, .mapWrite, .unlock] else []

/-- `Delete`: `lock.Lock()`, `delete(registry, purpose)`, deferred
`lock.Unlock()`. -/
def deleteEvents : List Event :=
  [.lock, .mapWrite, .unlock]

/-- `Clear` (registry.go lines 103-107): `for k := range registry`
reads the map and `delete(registry, k)` writes it, once per entry —
with no `lock.Lock()` anywhere in the body. -/
def clearEvents (entries : Nat) : List Event :=
  (List.replicate entries ([Event.mapRead, Event.mapWrite])).flatten

/-- `Sign`: the `findContext` call (which locks around its map read),
then pure checks and claim building, then — when all checks pass —
the `jwt.Sign` call into the external library. -/
def signEvents (reachesSigner : Bool) : List Event :=
  findContextEvents ++ (if reachesSigner then [Event.extCall] else [])

/-- `Validate`: the `findContext` call, then pure checks, then — when
they pass — the `jwt.Parse` call into the external library. -/
def validateEvents (reachesParser : Bool) : List Event :=
  findContextEvents ++ (if reachesParser then [Event.extCall] else [])

/-- The claimed discipline, checked over a trace while tracking the
lock-hold depth: every map read and write happens with the lock held,
and every call into the external JWT library happens with the lock
released. -/
def disciplined : List Event → Nat → Bool
  | [], _ => true
  | .lock :: es, d => disciplined es (d + 1)
  | .unlock :: es, d => disciplined es (d - 1)
  | .mapRead :: es, d => decide (0 < d) && disciplined es d
  | .mapWrite :: es, d => decide (0 < d) && disciplined es d
  | .extCall :: es, d => decide (d = 0) && disciplined es d

/-!
## Reachable registry states

The registry map is private to the package: the only operations that
ever produce a registry state are the exported `Register`, `Delete`
and `Clear` (plus the empty map `initOnce` allocates). -/

/-- The registry states some sequence of exported calls can produce. -/
inductive Reachable : Registry → Prop where
  | empty : Reachable emptyRegistry
  | register (r : Registry) (p i : String) (opts : List Opt) :
      Reachable r → Reachable (RegisterOp r p i opts).1
  | delete (r : Registry) (p : String) :
      Reachable r → Reachable (DeleteOp r p)
  | clear (r : Registry) :
      Reachable r → Reachable (ClearOp r)

/-!
## Spec-side definitions

Definitions written from the specification's words, to be compared
with the translated code above. -/

/-- Written from the spec (§4.2 step 5): the issue time is the supplied
clock argument's `Now()` if the argument is non-nil, else the `Now()`
of the Context's own clock if that clock is non-nil, else the real
wall-clock time; the first non-nil source wins. -/
def specSignNow (c : Context) (clock : Option JwtClock) (wall : Int) : Int :=
  match clock with
  | some cl => cl wall
  | none =>
    match c.clock with
    | some cl => cl wall
    | none => wall

/-- Written from the claim: the `Sign` error cascade — not registered,
then empty signing key name, then nil/empty keyset, then unresolvable
key name, in exactly this order; `none` when every check passes. -/
def signErrorSpec (reg : Registry) (purpose : String) : Option String :=
  match reg purpose with
  | none => some "context not found in registry"
  | some c =>
    if c.signingKeyName.length = 0 then some "signing key not set"
    else
      match c.keyset with
      | none => some "keyset is empty"
      | some ks =>
        if ks.Len = 0 then some "keyset is empty"
        else
          match ks.LookupKeyID c.signingKeyName with
          | none => some "key is not in the keyset"
          | some _ => none

/-- Written from the claim: the exact claim set `{iss: I, iat: T}`
with no `exp` claim. -/
def c5NoExpClaims (issuer : String) (t : Int) : Token :=
  fun k =>
    if k = "iss" then some (.str issuer)
    else if k = "iat" then some (.time t)
    else none

/-- Written from the claim: the exact claim set
`{iss: I, iat: T, exp: T+D}`. -/
def c5ExpClaims (issuer : String) (t d : Int) : Token :=
  fun k =>
    if k = "iss" then some (.str issuer)
    else if k = "iat" then some (.time t)
    else if k = "exp" then some (.time (t + d))
    else none

/-!
## Concrete fixtures

The symmetric key and contexts the repository's own tests register
(registry_test.go `setupKeys`), used to instantiate the theorems. -/

/-- The test key: kid `key1`, algorithm HS256, secret `abcd1234`. -/
def key1 : Key :=
  { keyID := "key1", algorithm := "HS256", raw := "abcd1234" }

/-- The test keyset holding `key1`. -/
def keyset1 : JwkSet :=
  { keys := [key1] }

/-- Options of the `noExpiry`-style test contexts. -/
def webOpts : List Opt :=
  [.withKeyset (some keyset1), .withSigningKeyName "key1"]

/-- A context as the tests register under `web`. -/
def webCtx : Context :=
  buildContext "web" "flame" webOpts

/-- The registry after registering `webCtx`. -/
def webReg : Registry :=
  (RegisterOp emptyRegistry "web" "flame" webOpts).1

/-- Options of the `expiry` test context: validity period 60. -/
def expiryOpts : List Opt :=
  [.withKeyset (some keyset1), .withSigningKeyName "key1",
   .withSigningValidityPeriod 60]

/-- The `expiry` test context. -/
def expiryCtx : Context :=
  buildContext "expiry" "flame" expiryOpts

/-- The registry after registering `expiryCtx`. -/
def expiryReg : Registry :=
  (RegisterOp emptyRegistry "expiry" "flame" expiryOpts).1

/-- Options of a context with a negative validity period. -/
def negOpts : List Opt :=
  [.withKeyset (some keyset1), .withSigningKeyName "key1",
   .withSigningValidityPeriod (-60)]

/-- A context registered with a negative validity period. -/
def negCtx : Context :=
  buildContext "neg" "flame" negOpts

/-- The registry after registering `negCtx`. -/
def negReg : Registry :=
  (RegisterOp emptyRegistry "neg" "flame" negOpts).1

/-- The fixed test clock reading 1111. -/
def clk1111 : JwtClock :=
  TimeClock.toClock ⟨1111⟩

/-- The fixed test clock reading 2222. -/
def clk2222 : JwtClock :=
  TimeClock.toClock ⟨2222⟩

/-- A token as the tests sign at time 1111 with one private claim
`foo: bar`. -/
def tok1111 : SignedToken :=
  { claims := mergeClaims (standardClaims "flame" 1111 0) [("foo", "bar")]
    alg := "HS256"
    key := key1 }

/-!
## Helper lemmas
-/

theorem applyOpt_purpose (o : Opt) (c : Context) :
    (applyOpt o c).purpose = c.purpose := by
  cases o <;> rfl

theorem applyOpt_clock (o : Opt) (c : Context) :
    (applyOpt o c).clock = c.clock := by
  cases o <;> rfl

theorem foldl_applyOpt_purpose (opts : List Opt) (c : Context) :
    (opts.foldl (fun c o => applyOpt o c) c).purpose = c.purpose := by
  induction opts generalizing c with
  | nil => rfl
  | cons o tl ih => rw [List.foldl_cons, ih, applyOpt_purpose]

theorem foldl_applyOpt_clock (opts : List Opt) (c : Context) :
    (opts.foldl (fun c o => applyOpt o c) c).clock = c.clock := by
  induction opts generalizing c with
  | nil => rfl
  | cons o tl ih => rw [List.foldl_cons, ih, applyOpt_clock]

theorem buildContext_purpose (p i : String) (opts : List Opt) :
    (buildContext p i opts).purpose = p :=
  foldl_applyOpt_purpose opts _

theorem buildContext_clock (p i : String) (opts : List Opt) :
    (buildContext p i opts).clock = some defaultClock :=
  foldl_applyOpt_clock opts _

/-- The registry invariant every reachable state satisfies: each
stored context sits under its own purpose and carries the default
clock `Register` gave it. -/
theorem reachable_invariant (reg : Registry) (h : Reachable reg) :
    ∀ k c, reg k = some c → c.purpose = k ∧ c.clock = some defaultClock := by
  induction h with
  | empty => intro k c hk; exact absurd hk (by simp [emptyRegistry])
  | register r p i opts _ ih =>
    intro k c hk
    by_cases hp : p.length = 0
    · rw [RegisterOp, if_pos hp] at hk; exact ih k c hk
    · by_cases hi : i.length = 0
      · rw [RegisterOp, if_neg hp, if_pos hi] at hk; exact ih k c hk
      · rw [RegisterOp, if_neg hp, if_neg hi] at hk
        simp only [updateReg] at hk
        by_cases hkp : k = p
        · rw [if_pos hkp] at hk
          injection hk with hk
          subst hk
          exact ⟨(buildContext_purpose p i opts).trans hkp.symm,
            buildContext_clock p i opts⟩
        · rw [if_neg hkp] at hk; exact ih k c hk
  | delete r p _ ih =>
    intro k c hk
    simp only [DeleteOp] at hk
    by_cases hkp : k = p
    · rw [if_pos hkp] at hk; exact absurd hk (by simp)
    · rw [if_neg hkp] at hk; exact ih k c hk
  | clear r _ ih =>
    intro k c hk
    exact absurd hk (by simp [ClearOp])

theorem string_eq_empty_of_length_eq_zero (s : String) (h : s.length = 0) :
    s = "" := by
  cases s with
  | mk d =>
    simp [String.length] at h
    simp [h]

theorem mergeClaims_not_mem (cls : List (String × String)) (t : Token)
    (k : String) (h : k ∉ cls.map Prod.fst) : mergeClaims t cls k = t k := by
  induction cls generalizing t with
  | nil => rfl
  | cons kv tl ih =>
    simp only [List.map_cons, List.mem_cons, not_or] at h
    rw [mergeClaims, List.foldl_cons]
    have := ih (setClaim t kv.1 (.str kv.2)) h.2
    rw [mergeClaims] at this
    rw [this, setClaim, if_neg h.1]

theorem mergeClaims_mem (cls : List (String × String)) (t : Token)
    (hnd : (cls.map Prod.fst).Nodup) (k : String) (v : String)
    (h : (k, v) ∈ cls) : mergeClaims t cls k = some (.str v) := by
  induction cls generalizing t with
  | nil => exact absurd h (List.not_mem_nil _)
  | cons kv tl ih =>
    simp only [List.map_cons, List.nodup_cons] at hnd
    rw [mergeClaims, List.foldl_cons]
    rcases List.mem_cons.mp h with heq | hmem
    · have hk : k = kv.1 := by rw [← heq]
      have hv : v = kv.2 := by rw [← heq]
      have hnot : k ∉ tl.map Prod.fst := by
        rw [hk]; intro hmem; exact hnd.1 hmem
      have := mergeClaims_not_mem tl (setClaim t kv.1 (.str kv.2)) k hnot
      rw [mergeClaims] at this
      rw [this, setClaim, if_pos hk, hv]
    · have := ih (setClaim t kv.1 (.str kv.2)) hnd.2 hmem
      rw [mergeClaims] at this
      rw [this]

/-- When every configuration check passes, `Sign` reaches the signer
and produces the merged claim set signed with the resolved key and its
algorithm. -/
theorem sign_ok (reg : Registry) (purpose : String) (c : Context)
    (ks : JwkSet) (key : Key) (cls : List (String × String))
    (clock : Option JwtClock) (wall : Int)
    (hr : reg purpose = some c) (hn : c.signingKeyName ≠ "")
    (hk : c.keyset = some ks)
    (hl : ks.LookupKeyID c.signingKeyName = some key) :
    Sign reg purpose cls clock wall =
      .ok { claims := mergeClaims
              (standardClaims c.issuer (nowFromClock clock wall)
                c.signingValidityPeriod) cls
            alg := key.algorithm
            key := key } := by
  have hlen : ¬ c.signingKeyName.length = 0 := fun h0 =>
    hn (string_eq_empty_of_length_eq_zero _ h0)
  have hmem : key ∈ ks.keys := List.mem_of_find?_eq_some hl
  have hLen : ¬ ks.Len = 0 := by
    intro h0
    rw [JwkSet.Len, List.length_eq_zero] at h0
    rw [h0] at hmem
    exact absurd hmem (List.not_mem_nil key)
  rw [Sign, findContext, hr]
  simp only [hk, hl, if_neg hlen, if_neg hLen]

theorem standardClaims_iss (i : String) (now per : Int) :
    standardClaims i now per "iss" = some (.str i) := by
  rw [standardClaims]
  by_cases h : per > 0 <;> simp [h, setClaim, emptyToken]

theorem standardClaims_iat (i : String) (now per : Int) :
    standardClaims i now per "iat" = some (.time now) := by
  rw [standardClaims]
  by_cases h : per > 0 <;> simp [h, setClaim]

theorem standardClaims_exp_pos (i : String) (now per : Int) (h : per > 0) :
    standardClaims i now per "exp" = some (.time (now + per)) := by
  rw [standardClaims]
  simp [h, setClaim]

theorem standardClaims_exp_nonpos (i : String) (now per : Int) (h : ¬ per > 0) :
    standardClaims i now per "exp" = none := by
  rw [standardClaims]
  simp [h, setClaim, emptyToken]

theorem standardClaims_other (i : String) (now per : Int) (k : String)
    (h1 : k ≠ "iss") (h2 : k ≠ "iat") (h3 : k ≠ "exp") :
    standardClaims i now per k = none := by
  rw [standardClaims]
  by_cases h : per > 0 <;> simp [h, setClaim, emptyToken, h1, h2, h3]

/-!
## The claims
-/

/-- C1: on every registered context, the issue time `now` that `Sign`
uses to build the claims is the first non-nil of: the supplied clock
argument, the Context's own clock, the real wall-clock time — the
value `specSignNow` written from the spec. The `iat` claim of a
successful `Sign` carries exactly this instant. -/
theorem claim1_sign_now (reg : Registry) (p : String) (c : Context)
    (ks : JwkSet) (key : Key) (cls : List (String × String))
    (clock : Option JwtClock) (wall : Int)
    (hreach : Reachable reg) (hc : reg p = some c)
    (hn : c.signingKeyName ≠ "") (hk : c.keyset = some ks)
    (hl : ks.LookupKeyID c.signingKeyName = some key)
    (hiat : "iat" ∉ cls.map Prod.fst) :
    nowFromClock clock wall = specSignNow c clock wall ∧
    claimAt (Sign reg p cls clock wall) "iat" =
      some (.time (specSignNow c clock wall)) := by
  have hclock := (reachable_invariant reg hreach p c hc).2
  have hnow : nowFromClock clock wall = specSignNow c clock wall := by
    cases clock with
    | some cl => rfl
    | none =>
      rw [nowFromClock, specSignNow, hclock]
      simp [defaultClock, TimeClock.toClock, TimeClock.Now]
  refine ⟨hnow, ?_⟩
  rw [sign_ok reg p c ks key cls clock wall hc hn hk hl]
  show mergeClaims (standardClaims c.issuer (nowFromClock clock wall)
      c.signingValidityPeriod) cls "iat" = _
  rw [mergeClaims_not_mem cls _ "iat" hiat, standardClaims_iat, hnow]

/-- C1 witness: a concrete reachable registry and a concrete supplied
clock. -/
theorem claim1_sign_now_witness :
    claimAt (Sign webReg "web" [] (some clk1111) 0) "iat" =
      some (.time (specSignNow webCtx (some clk1111) 0)) :=
  (claim1_sign_now webReg "web" webCtx keyset1 key1 [] (some clk1111) 0
      (Reachable.register emptyRegistry "web" "flame" webOpts Reachable.empty)
      rfl (by decide) rfl (by decide) (by decide)).2

/-- C2 is refuted on the code: `Clear` (registry.go lines 103-107)
reads and deletes registry map entries without acquiring the lock,
while every other operation keeps its map accesses inside a
lock/unlock pair and calls the external JWT library only after the
lock is released. -/
theorem claim2_clear_unlocked_map_access :
    disciplined findContextEvents 0 = true ∧
    disciplined (registerEvents true) 0 = true ∧
    disciplined (registerEvents false) 0 = true ∧
    disciplined deleteEvents 0 = true ∧
    disciplined (signEvents true) 0 = true ∧
    disciplined (signEvents false) 0 = true ∧
    disciplined (validateEvents true) 0 = true ∧
    disciplined (validateEvents false) 0 = true ∧
    disciplined (clearEvents 1) 0 = false := by
  decide

/-- C3: `TimeClock.Now` returns the stored fixed instant when the
stored epoch-seconds value is non-zero, and falls back to the real
wall-clock time when it is the zero sentinel; both cases return a
value (the zero case is not an error). -/
theorem claim3_timeclock_now (tc : TimeClock) (wall : Int) :
    (tc.NowTime ≠ 0 → tc.Now wall = tc.NowTime) ∧
    (tc.NowTime = 0 → tc.Now wall = wall) := by
  constructor
  · intro h; rw [TimeClock.Now, if_pos h]
  · intro h; rw [TimeClock.Now, if_neg (by simp [h])]

/-- C3 witness: the fixed clock at 50 and the unset clock, both read
at wall-clock time 7. -/
theorem claim3_timeclock_now_witness :
    TimeClock.Now ⟨50⟩ 7 = 50 ∧ TimeClock.Now ⟨0⟩ 7 = 7 :=
  ⟨(claim3_timeclock_now ⟨50⟩ 7).1 (by decide),
   (claim3_timeclock_now ⟨0⟩ 7).2 rfl⟩

/-- C10: in every reachable registry state each stored Context sits
under its own purpose, and no configuration mutator changes the
purpose field. -/
theorem claim10_purpose_key_invariant (reg : Registry)
    (h : Reachable reg) :
    (∀ k c, reg k = some c → c.purpose = k) ∧
    (∀ o c, (applyOpt o c).purpose = c.purpose) :=
  ⟨fun k c hk => (reachable_invariant reg h k c hk).1,
   fun o c => applyOpt_purpose o c⟩

/-- C10 witness: the registry obtained by one concrete `Register`
call. -/
theorem claim10_purpose_key_invariant_witness :
    (buildContext "web" "flame" []).purpose = "web" :=
  (claim10_purpose_key_invariant _
      (Reachable.register emptyRegistry "web" "flame" [] Reachable.empty)).1
    "web" (buildContext "web" "flame" []) rfl

theorem claimsOf_ok (st : SignedToken) : claimsOf (.ok st) = some st.claims :=
  rfl

theorem mergeClaims_nil (t : Token) : mergeClaims t [] = t :=
  rfl

theorem standardClaims_eq_noexp (i : String) (t per : Int) (h : ¬ per > 0) :
    standardClaims i t per = c5NoExpClaims i t := by
  funext k
  by_cases h1 : k = "iss"
  · subst h1; rw [standardClaims_iss]; simp [c5NoExpClaims]
  · by_cases h2 : k = "iat"
    · subst h2; rw [standardClaims_iat]; simp [c5NoExpClaims]
    · by_cases h3 : k = "exp"
      · subst h3
        rw [standardClaims_exp_nonpos i t per h]
        simp [c5NoExpClaims]
      · rw [standardClaims_other i t per k h1 h2 h3]
        simp [c5NoExpClaims, h1, h2]

theorem standardClaims_eq_exp (i : String) (t per : Int) (h : per > 0) :
    standardClaims i t per = c5ExpClaims i t per := by
  funext k
  by_cases h1 : k = "iss"
  · subst h1; rw [standardClaims_iss]; simp [c5ExpClaims]
  · by_cases h2 : k = "iat"
    · subst h2; rw [standardClaims_iat]; simp [c5ExpClaims]
    · by_cases h3 : k = "exp"
      · subst h3
        rw [standardClaims_exp_pos i t per h]
        simp [c5ExpClaims]
      · rw [standardClaims_other i t per k h1 h2 h3]
        simp [c5ExpClaims, h1, h2, h3]

/-- C4: whenever `Sign` reaches the signing step, the token is signed
with the key resolved by `signingKeyName` from the keyset, using that
key's own declared algorithm — for every key, not a fixed algorithm. -/
theorem claim4_sign_uses_key_algorithm (reg : Registry) (p : String)
    (c : Context) (ks : JwkSet) (key : Key)
    (cls : List (String × String)) (clock : Option JwtClock) (wall : Int)
    (hc : reg p = some c) (hn : c.signingKeyName ≠ "")
    (hk : c.keyset = some ks)
    (hl : ks.LookupKeyID c.signingKeyName = some key) :
    signKeyAlg (Sign reg p cls clock wall) = some (key, key.algorithm) := by
  rw [sign_ok reg p c ks key cls clock wall hc hn hk hl]
  rfl

/-- C4 witness: signing with the registered test context resolves
`key1` and uses its declared HS256 algorithm. -/
theorem claim4_sign_uses_key_algorithm_witness :
    signKeyAlg (Sign webReg "web" [] none 0) = some (key1, "HS256") :=
  claim4_sign_uses_key_algorithm webReg "web" webCtx keyset1 key1 [] none 0
    rfl (by decide) rfl (by decide)

/-- C5 as frozen is false on the code: with a *negative* (hence
non-zero) validity period `-60`, signing at fixed time 1111 yields a
claim set with no `exp` claim, not `{iss, iat, exp: 1111-60}` as the
claim demands for every non-zero period. -/
theorem claim5_counterexample :
    claimsOf (Sign negReg "neg" [] (some clk1111) 0) ≠
      some (c5ExpClaims "flame" 1111 (-60)) := by
  have hL : claimsOf (Sign negReg "neg" [] (some clk1111) 0) =
      some (standardClaims "flame" 1111 (-60)) := by
    rw [sign_ok negReg "neg" negCtx keyset1 key1 [] (some clk1111) 0
        rfl (by decide) rfl (by decide), claimsOf_ok]
    rfl
  intro h
  rw [hL] at h
  have h1 := congrFun (Option.some.inj h) "exp"
  rw [standardClaims_exp_nonpos "flame" 1111 (-60) (by decide)] at h1
  simp [c5ExpClaims] at h1

/-- C5 amended: on a registered context with issuer `I`, signing with
no extra claims under a fixed clock reading `T` yields decoded claims
exactly `{iss: I, iat: T}` when the validity period is zero, and
exactly `{iss: I, iat: T, exp: T+D}` when the period `D` is
*positive*. -/
theorem claim5_sign_claims_exact (reg : Registry) (p : String)
    (c : Context) (ks : JwkSet) (key : Key) (T wall : Int)
    (hc : reg p = some c) (hn : c.signingKeyName ≠ "")
    (hk : c.keyset = some ks)
    (hl : ks.LookupKeyID c.signingKeyName = some key) (hT : T ≠ 0) :
    (c.signingValidityPeriod = 0 →
      claimsOf (Sign reg p [] (some (TimeClock.toClock ⟨T⟩)) wall) =
        some (c5NoExpClaims c.issuer T)) ∧
    (0 < c.signingValidityPeriod →
      claimsOf (Sign reg p [] (some (TimeClock.toClock ⟨T⟩)) wall) =
        some (c5ExpClaims c.issuer T c.signingValidityPeriod)) := by
  have hnow : nowFromClock (some (TimeClock.toClock ⟨T⟩)) wall = T := by
    simp [nowFromClock, TimeClock.toClock, TimeClock.Now, hT]
  have hbase := sign_ok reg p c ks key [] (some (TimeClock.toClock ⟨T⟩))
    wall hc hn hk hl
  constructor
  · intro h0
    rw [hbase, claimsOf_ok]
    show some (mergeClaims (standardClaims c.issuer
        (nowFromClock (some (TimeClock.toClock ⟨T⟩)) wall)
        c.signingValidityPeriod) []) = _
    rw [mergeClaims_nil, hnow, h0,
      standardClaims_eq_noexp c.issuer T 0 (by decide)]
  · intro h0
    rw [hbase, claimsOf_ok]
    show some (mergeClaims (standardClaims c.issuer
        (nowFromClock (some (TimeClock.toClock ⟨T⟩)) wall)
        c.signingValidityPeriod) []) = _
    rw [mergeClaims_nil, hnow,
      standardClaims_eq_exp c.issuer T c.signingValidityPeriod h0]

/-- C5 witness: the `expiry` test context (period 60) signed at fixed
time 1111. -/
theorem claim5_sign_claims_exact_witness :
    claimsOf (Sign expiryReg "expiry" [] (some clk1111) 0) =
      some (c5ExpClaims "flame" 1111 60) :=
  (claim5_sign_claims_exact expiryReg "expiry" expiryCtx keyset1 key1
      1111 0 rfl (by decide) rfl (by decide) (by decide)).2 (by decide)

/-- C6: the `Sign` failure checks happen in exactly the claimed order
(not registered, then empty signing key name, then nil/empty keyset,
then unresolvable key), and neither `Sign` nor `Validate` ever changes
the registry state. -/
theorem claim6_sign_error_cascade (reg : Registry) (p : String)
    (cls : List (String × String)) (tok : SignedToken)
    (clock : Option JwtClock) (wall : Int) :
    (SignOp reg p cls clock wall).1 = reg ∧
    (ValidateOp reg p tok clock wall).1 = reg ∧
    errInfo (SignOp reg p cls clock wall).2 = signErrorSpec reg p := by
  refine ⟨rfl, rfl, ?_⟩
  show errInfo (Sign reg p cls clock wall) = signErrorSpec reg p
  unfold Sign signErrorSpec
  rw [findContext]
  cases hc : reg p with
  | none => rfl
  | some c =>
    simp only
    by_cases h1 : c.signingKeyName.length = 0
    · rw [if_pos h1, if_pos h1]; rfl
    · rw [if_neg h1, if_neg h1]
      cases hk : c.keyset with
      | none => rfl
      | some ks =>
        simp only
        by_cases h2 : ks.Len = 0
        · rw [if_pos h2, if_pos h2]; rfl
        · rw [if_neg h2, if_neg h2]
          cases hl : ks.LookupKeyID c.signingKeyName with
          | none => rfl
          | some key => rfl

/-- C7 as frozen is false on the code: at the empty purpose, a call
with an empty issuer fails with the purpose message, not with
"issuer must be provided" as the claim demands for every purpose. -/
theorem claim7_counterexample :
    ¬ (RegisterOp emptyRegistry "" "" []).2 = some "issuer must be provided" := by
  decide

/-- C7 amended: `Register` with an empty purpose always fails with
"purpose must be provided" and leaves the registry untouched; with a
*non-empty* purpose and an empty issuer it always fails with
"issuer must be provided" and leaves the registry untouched. -/
theorem claim7_register_arg_errors (reg : Registry)
    (purpose issuer : String) (opts : List Opt) :
    RegisterOp reg "" issuer opts = (reg, some "purpose must be provided") ∧
    (purpose ≠ "" →
      RegisterOp reg purpose "" opts =
        (reg, some "issuer must be provided")) := by
  have hnil : ("" : String).length = 0 := rfl
  constructor
  · rw [RegisterOp, if_pos hnil]
  · intro hp
    have h1 : ¬ purpose.length = 0 := fun h0 =>
      hp (string_eq_empty_of_length_eq_zero _ h0)
    rw [RegisterOp, if_neg h1, if_pos hnil]

/-- C7 witness: the concrete calls the repository's own tests make. -/
theorem claim7_register_arg_errors_witness :
    RegisterOp emptyRegistry "" "flame" [] =
      (emptyRegistry, some "purpose must be provided") ∧
    RegisterOp emptyRegistry "foo" "" [] =
      (emptyRegistry, some "issuer must be provided") :=
  ⟨(claim7_register_arg_errors emptyRegistry "foo" "flame" []).1,
   (claim7_register_arg_errors emptyRegistry "foo" "flame" []).2 (by decide)⟩

theorem jwtParse_ok (ks : JwkSet) (i : String) (clock : Option JwtClock)
    (wall : Int) (tok : SignedToken) (t : Token)
    (h : jwtParse ks i clock wall tok = .ok t) : t = tok.claims := by
  simp only [jwtParse] at h
  split_ifs at h
  all_goals
    first
      | exact Except.noConfusion h
      | exact (Except.ok.inj h).symm

/-- C8: a successful `Validate` returns exactly the token's private
(non-registered) claims, each rendered as a string; `iss`, `iat` and
`exp` are never in the result, and a token carrying only standard
claims yields the empty map. -/
theorem claim8_validate_private_claims (reg : Registry) (p : String)
    (tok : SignedToken) (clock : Option JwtClock) (wall : Int)
    (m : String → Option String)
    (h : Validate reg p tok clock wall = .ok m) :
    m "iss" = none ∧ m "iat" = none ∧ m "exp" = none ∧
    (∀ k, isRegisteredClaim k = false → m k = (tok.claims k).map render) ∧
    ((∀ k, isRegisteredClaim k = false → tok.claims k = none) →
      ∀ k, m k = none) := by
  have hm : m = privateClaimsRendered tok.claims := by
    unfold Validate at h
    cases hc : findContext reg p with
    | none => rw [hc] at h; exact Except.noConfusion h
    | some c =>
      rw [hc] at h
      simp only at h
      cases hks : c.keyset with
      | none => rw [hks] at h; exact Except.noConfusion h
      | some ks =>
        rw [hks] at h
        simp only at h
        by_cases h2 : ks.Len = 0
        · rw [if_pos h2] at h; exact Except.noConfusion h
        · rw [if_neg h2] at h
          cases hp : jwtParse ks c.issuer clock wall tok with
          | error e => rw [hp] at h; exact Except.noConfusion h
          | ok t =>
            rw [hp] at h
            rw [jwtParse_ok ks c.issuer clock wall tok t hp] at h
            exact (Except.ok.inj h).symm
  subst hm
  refine ⟨?_, ?_, ?_, ?_, ?_⟩
  · simp [privateClaimsRendered, isRegisteredClaim]
  · simp [privateClaimsRendered, isRegisteredClaim]
  · simp [privateClaimsRendered, isRegisteredClaim]
  · intro k hk
    simp [privateClaimsRendered, hk]
  · intro hall k
    by_cases hk : isRegisteredClaim k
    · simp [privateClaimsRendered, hk]
    · have := hall k (by simpa using hk)
      simp [privateClaimsRendered, hk, this]

/-- C8 witness: validating the test token carrying the private claim
`foo: bar` at clock time 2222 against the `web` context. -/
theorem claim8_validate_private_claims_witness :
    privateClaimsRendered tok1111.claims "iss" = none ∧
    privateClaimsRendered tok1111.claims "foo" = some "bar" := by
  have h := claim8_validate_private_claims webReg "web" tok1111
    (some clk2222) 0 (privateClaimsRendered tok1111.claims) rfl
  exact ⟨h.1, by rw [h.2.2.2.1 "foo" (by decide)]; rfl⟩

/-- C9: every key/value pair of the extra claims passed to `Sign`
appears in the signed token's decoded payload (with the caller's value
winning on a collision with a standard claim), and all other keys
carry the standard claims unchanged. -/
theorem claim9_extra_claims_merged (reg : Registry) (p : String)
    (c : Context) (ks : JwkSet) (key : Key)
    (cls : List (String × String)) (clock : Option JwtClock) (wall : Int)
    (hc : reg p = some c) (hn : c.signingKeyName ≠ "")
    (hk : c.keyset = some ks)
    (hl : ks.LookupKeyID c.signingKeyName = some key)
    (hnd : (cls.map Prod.fst).Nodup) :
    (∀ kv ∈ cls,
      claimAt (Sign reg p cls clock wall) kv.1 = some (.str kv.2)) ∧
    (∀ k, k ∉ cls.map Prod.fst →
      claimAt (Sign reg p cls clock wall) k =
        standardClaims c.issuer (nowFromClock clock wall)
          c.signingValidityPeriod k) := by
  constructor
  · intro kv hkv
    rw [sign_ok reg p c ks key cls clock wall hc hn hk hl]
    show mergeClaims (standardClaims c.issuer (nowFromClock clock wall)
        c.signingValidityPeriod) cls kv.1 = _
    exact mergeClaims_mem cls _ hnd kv.1 kv.2 hkv
  · intro k hk2
    rw [sign_ok reg p c ks key cls clock wall hc hn hk hl]
    show mergeClaims (standardClaims c.issuer (nowFromClock clock wall)
        c.signingValidityPeriod) cls k = _
    exact mergeClaims_not_mem cls _ k hk2

/-- C9 witness: signing with extra claims `foo: bar` and the colliding
standard key `iss: x`; both land in the payload, the collision taking
the caller's value. -/
theorem claim9_extra_claims_merged_witness :
    claimAt (Sign webReg "web" [("foo", "bar"), ("iss", "x")]
        (some clk1111) 0) "foo" = some (.str "bar") ∧
    claimAt (Sign webReg "web" [("foo", "bar"), ("iss", "x")]
        (some clk1111) 0) "iss" = some (.str "x") := by
  have h := claim9_extra_claims_merged webReg "web" webCtx keyset1 key1
    [("foo", "bar"), ("iss", "x")] (some clk1111) 0 rfl (by decide) rfl
    (by decide) (by decide)
  exact ⟨h.1 ("foo", "bar") (by decide), h.1 ("iss", "x") (by decide)⟩

end Jwtregistry
